import Mathlib

/-!
Verification of the analysis-job orchestrator of the face-analysis chatbot
backend.  The definitions below are a shallow embedding of the Python source:

* `analyze_images`, `countFace` embed `PipelineService.analyze_images`
  (backend/services/pipeline_service.py, lines 44-75);
* `map_age_to_group`, `processFaces`, `process_image` embed
  `ImagePipeline._map_age_to_group` and `ImagePipeline.process_image`
  (image_pipeline/image_pipeline.py);
* `upload_images`, `validate_image`, `pathSuffix` embed the upload router
  (backend/routers/upload.py);
* `start_analysis`, `run_analysis_background` embed the analyze router
  (backend/routers/analyze.py).

External collaborators (the YOLO detector, the two ViT classifiers, the file
system) are modelled as oracle functions passed in as parameters; machine
strings are Lean `String`, timestamps are `Nat` counters, and the SQLite row
of the `analyses` table is the `Job` structure.
-/

namespace FaceAnalysis

/-- Lowercasing as performed by the Python `str.lower()` calls in the source,
modelled as a character-wise map so that it evaluates inside the kernel. -/
def lowerStr (s : String) : String := String.mk (s.toList.map Char.toLower)

/-- A classified face as consumed by the aggregation loop of
`PipelineService.analyze_images`: the `gender` and `age_group` string entries
of the per-face dictionaries returned by `ImagePipeline.process_image`.  The
`bbox` and `confidence` entries are carried through the source unchanged and
never read by any aggregation or control decision, so they are not part of
this record. -/
structure FaceRecord where
  gender : String
  age_group : String
deriving DecidableEq, Repr

/-- The aggregated result dictionary built by `analyze_images`: the
`total_faces` counter, the two `gender` counters and the four `age_group`
counters. -/
structure Aggregate where
  total_faces : Nat
  male : Nat
  female : Nat
  age10s : Nat
  age20s : Nat
  age30s : Nat
  age40plus : Nat
deriving DecidableEq, Repr

/-- The initial value of `aggregated` in `analyze_images` (lines 45-49). -/
def zeroAggregate : Aggregate := ⟨0, 0, 0, 0, 0, 0, 0⟩

/-- The membership test `gender in aggregated["gender"]` for the key `male`,
after the `face["gender"].lower()` normalisation of line 63. -/
def isMale (f : FaceRecord) : Bool := lowerStr f.gender = "male"

/-- As `isMale`, for the key `female`. -/
def isFemale (f : FaceRecord) : Bool := lowerStr f.gender = "female"

/-- The membership test `age_group in aggregated["age_group"]` for `10s`. -/
def is10s (f : FaceRecord) : Bool := f.age_group = "10s"

/-- As `is10s`, for the key `20s`. -/
def is20s (f : FaceRecord) : Bool := f.age_group = "20s"

/-- As `is10s`, for the key `30s`. -/
def is30s (f : FaceRecord) : Bool := f.age_group = "30s"

/-- As `is10s`, for the key `40_plus`. -/
def is40plus (f : FaceRecord) : Bool := f.age_group = "40_plus"

/-- One iteration of the per-face counting loop of `analyze_images`
(lines 59-70): `total_faces` is always incremented; the lowercased gender
increments its bucket only when it is one of the two dictionary keys; the
age group increments its bucket only when it is one of the four keys. -/
def countFace (acc : Aggregate) (f : FaceRecord) : Aggregate :=
  { total_faces := acc.total_faces + 1
    male := acc.male + (if isMale f then 1 else 0)
    female := acc.female + (if isFemale f then 1 else 0)
    age10s := acc.age10s + (if is10s f then 1 else 0)
    age20s := acc.age20s + (if is20s f then 1 else 0)
    age30s := acc.age30s + (if is30s f then 1 else 0)
    age40plus := acc.age40plus + (if is40plus f then 1 else 0) }

/-- The whole `for face in face_results` loop for one image. -/
def foldFaces (acc : Aggregate) (faces : List FaceRecord) : Aggregate :=
  faces.foldl countFace acc

/-- Folding a sequence of per-image face-record batches into one aggregate,
starting from the zero aggregate, exactly as the outer loop of
`analyze_images` does for the batches that reach the counting loop. -/
def foldBatches (batches : List (List FaceRecord)) : Aggregate :=
  batches.foldl foldFaces zeroAggregate

/-- Sum of the four age-bucket counters of an aggregate. -/
def ageSum (a : Aggregate) : Nat := a.age10s + a.age20s + a.age30s + a.age40plus

/-- Outcome of one `self.pipeline.process_image(img_path)` call inside the
per-image `try` block of `analyze_images`: either the list of classified
faces, or the message of a raised exception.  The lazy `pipeline` property is
first dereferenced by this very call, so a failure of the heavyweight model
initialisation also surfaces here, inside the per-image `try`. -/
inductive InferResult
  | ok (faces : List FaceRecord)
  | error (msg : String)
deriving DecidableEq, Repr

/-- The body of the `for img_path in image_paths` loop of `analyze_images`
(lines 51-73): a missing file is skipped by the `continue` of line 54; a
raised exception is caught by the `except` of line 72 and the image is
skipped; otherwise every returned face is counted. -/
def analyzeStep (ex : String → Bool) (infer : String → InferResult)
    (acc : Aggregate) (p : String) : Aggregate :=
  if ex p then
    match infer p with
    | InferResult.ok faces => foldFaces acc faces
    | InferResult.error _ => acc
  else acc

/-- `PipelineService.analyze_images` (lines 44-75).  `ex` is the
`os.path.exists` oracle; `infer` is the per-image inference call. -/
def analyze_images (ex : String → Bool) (infer : String → InferResult)
    (image_paths : List String) : Aggregate :=
  image_paths.foldl (analyzeStep ex infer) zeroAggregate

/-- The face batch an image contributes to the counting loop, if any:
`none` for an image missing on disk or whose inference raised. -/
def successfulBatch (ex : String → Bool) (infer : String → InferResult)
    (p : String) : Option (List FaceRecord) :=
  if ex p then
    match infer p with
    | InferResult.ok faces => some faces
    | InferResult.error _ => none
  else none

/-- The per-image batches that actually reach the counting loop of
`analyze_images`: images missing on disk and images whose inference raised
are dropped, the rest contribute their face lists in manifest order. -/
def successfulBatches (ex : String → Bool) (infer : String → InferResult)
    (image_paths : List String) : List (List FaceRecord) :=
  image_paths.filterMap (successfulBatch ex infer)

/-- A detected face box from `ImagePipeline.detect_faces`: the four integer
corner coordinates of line 84.  The detection confidence is carried through
the source unchanged and never read by any control decision, so it is not
part of this record. -/
structure FaceBox where
  x1 : Int
  y1 : Int
  x2 : Int
  y2 : Int
deriving DecidableEq, Repr

/-- Width of the PIL crop `original_image.crop((x1, y1, x2, y2))`. -/
def cropWidth (b : FaceBox) : Int := b.x2 - b.x1

/-- Height of the PIL crop. -/
def cropHeight (b : FaceBox) : Int := b.y2 - b.y1

/-- `ImagePipeline._map_age_to_group` (lines 56-69): the fixed dictionary
lookup with default `40_plus` for any label outside the table. -/
def map_age_to_group (age_label : String) : String :=
  if age_label = "0-2" then "10s"
  else if age_label = "3-9" then "10s"
  else if age_label = "10-19" then "10s"
  else if age_label = "20-29" then "20s"
  else if age_label = "30-39" then "30s"
  else if age_label = "40-49" then "40_plus"
  else if age_label = "50-59" then "40_plus"
  else if age_label = "60-69" then "40_plus"
  else if age_label = "more than 70" then "40_plus"
  else "40_plus"

/-- The four keys of the `age_group` result dictionary. -/
def ageBuckets : List String := ["10s", "20s", "30s", "40_plus"]

/-- The `for face in faces` loop of `ImagePipeline.process_image`
(lines 119-140).  `g` is the gender-classifier oracle (`classify_gender`
applied to the crop of the box); `a` is the raw label of the age classifier,
which `classify_age` (lines 97-104) passes through `map_age_to_group`.
A crop narrower than 10 or shorter than 10 is skipped by the `continue` of
line 129; every other box yields one classified face record. -/
def processFaces (g a : FaceBox → String) : List FaceBox → List FaceRecord
  | [] => []
  | f :: rest =>
    if cropWidth f < 10 ∨ cropHeight f < 10 then processFaces g a rest
    else ⟨g f, map_age_to_group (a f)⟩ :: processFaces g a rest

/-- `ImagePipeline.process_image` (lines 106-145) applied to the detections
returned by `detect_faces`: the early return of line 112 for an empty
detection list, then the per-face loop. -/
def process_image (g a : FaceBox → String) (dets : List FaceBox) : List FaceRecord :=
  if dets.isEmpty then [] else processFaces g a dets

/-- The `status` column of the `analyses` table. -/
inductive Status
  | pending
  | processing
  | completed
  | failed
deriving DecidableEq, Repr

/-- The `json_result` column: the empty-object sentinel written at creation,
the aggregated result written on completion, or the error payload written by
the failure branch of `run_analysis_background`. -/
inductive JsonResult
  | empty
  | result (agg : Aggregate)
  | errorPayload (msg : String)
deriving DecidableEq, Repr

/-- One row of the `analyses` table, restricted to the columns the claims
read.  Timestamps are abstract counters supplied by the caller; SQLAlchemy
refreshes `updated_at` on every committed update. -/
structure Job where
  analysis_id : String
  image_paths : List String
  status : Status
  json_result : JsonResult
  created_at : Nat
  updated_at : Nat
deriving DecidableEq, Repr

/-- The allowed upload extensions of upload.py line 23. -/
def ALLOWED_EXTENSIONS : List String := [".jpg", ".jpeg", ".png", ".bmp", ".webp"]

/-- Splitting a character list at every occurrence of `c`, as Python string
splitting does: the embedding of path-component splitting used by
`pathlib.PurePath.name`. -/
def splitChar (c : Char) : List Char → List (List Char)
  | [] => [[]]
  | x :: rest =>
    match splitChar c rest with
    | [] => if x = c then [[], []] else [[x]]
    | grp :: grps => if x = c then [] :: grp :: grps else (x :: grp) :: grps

/-- The final path component, as `pathlib.PurePath(filename).name`: the last
nonempty slash-separated component (empty for a pure-slash or empty path). -/
def pathName (p : String) : List Char :=
  ((splitChar '/' p.toList).filter (fun cs => cs ≠ [])).getLastD []

/-- Index of the last occurrence of `c` in a character list. -/
def rfindIdx (c : Char) : List Char → Option Nat
  | [] => none
  | x :: rest =>
    match rfindIdx c rest with
    | some i => some (i + 1)
    | none => if x = c then some 0 else none

/-- `pathlib.PurePath(filename).suffix`: the substring of the final component
from its last dot, unless that dot is the first or the last character of the
component, in which case the suffix is empty. -/
def pathSuffix (p : String) : String :=
  let name := pathName p
  match rfindIdx '.' name with
  | none => ""
  | some i => if 0 < i ∧ i < name.length - 1 then String.mk (name.drop i) else ""

/-- `validate_image` (upload.py lines 26-29): the lowercased suffix must be
one of the allowed extensions. -/
def validate_image (filename : String) : Bool :=
  ALLOWED_EXTENSIONS.contains (lowerStr (pathSuffix filename))

/-- Result of the `upload_images` handler as far as job creation goes. -/
inductive UploadResult
  | noFiles
  | invalidType (filename : String)
  | created (job : Job)
deriving DecidableEq, Repr

/-- Whether an upload outcome created a job row. -/
def UploadResult.isCreated : UploadResult → Bool
  | UploadResult.created _ => true
  | _ => false

/-- The stored path of one uploaded file (upload.py line 67). -/
def savedPath (aid f : String) : String := "uploads/" ++ aid ++ "/" ++ f

/-- `upload_images` (upload.py lines 32-95): reject an empty file list with
status 400; reject the first file failing `validate_image` with status 400;
otherwise insert one `analyses` row with status `pending` and the
empty-object `json_result` sentinel, and report it.  `aid` is the generated
UUID, `now` the creation timestamp. -/
def upload_images (aid : String) (now : Nat) (files : List String) : UploadResult :=
  if files.isEmpty then UploadResult.noFiles
  else
    match files.find? (fun f => ! validate_image f) with
    | some f => UploadResult.invalidType f
    | none =>
        UploadResult.created
          { analysis_id := aid
            image_paths := files.map (savedPath aid)
            status := Status.pending
            json_result := JsonResult.empty
            created_at := now
            updated_at := now }

/-- `run_analysis_background` (analyze.py lines 19-51) on a job row that
exists: first commit `status = processing` (refreshing `updated_at` to
`now1`), then run `analyze_images` on the captured `image_paths`, then commit
the serialized result with `status = completed` (refreshing `updated_at` to
`now2`).  `analyze_images` catches every per-image exception internally, so
the `except` branch of lines 43-49 (status `failed`, error payload) is
reachable only through failures of serialization or of the database commits,
which are not modelled. -/
def run_analysis_background (ex : String → Bool) (infer : String → InferResult)
    (now1 now2 : Nat) (image_paths : List String) (job : Job) : Job :=
  let j1 : Job := { job with status := Status.processing, updated_at := now1 }
  let agg := analyze_images ex infer image_paths
  { j1 with status := Status.completed, json_result := JsonResult.result agg,
            updated_at := now2 }

/-- The responses of the `start_analysis` handler. -/
inductive StartResponse
  | notFound
  | conflict
  | completedMsg
  | noImages
  | accepted
deriving DecidableEq, Repr

/-- The request-visible server state for one analysis id: the job row (if
any) and the queue of background tasks submitted via
`background_tasks.add_task` but not yet executed, each holding the
`image_paths` captured at submission time. -/
structure ServerState where
  job : Option Job
  scheduled : List (List String)
deriving DecidableEq, Repr

/-- `start_analysis` (analyze.py lines 78-116): 404 if the row is absent,
409-style conflict if `status == "processing"`, a completed message if
`status == "completed"`, 400 if the stored manifest is empty; otherwise the
handler only enqueues `run_analysis_background` and returns.  The handler
itself never writes the row: the transition to `processing` happens inside
the queued task. -/
def start_analysis (st : ServerState) : StartResponse × ServerState :=
  match st.job with
  | none => (StartResponse.notFound, st)
  | some a =>
    if a.status = Status.processing then (StartResponse.conflict, st)
    else if a.status = Status.completed then (StartResponse.completedMsg, st)
    else if a.image_paths.isEmpty then (StartResponse.noImages, st)
    else
      (StartResponse.accepted,
        { st with scheduled := st.scheduled ++ [a.image_paths] })

/-! ### Field-wise characterisation of the aggregation fold -/

theorem Aggregate.ext_fields {x y : Aggregate}
    (h1 : x.total_faces = y.total_faces) (h2 : x.male = y.male)
    (h3 : x.female = y.female) (h4 : x.age10s = y.age10s)
    (h5 : x.age20s = y.age20s) (h6 : x.age30s = y.age30s)
    (h7 : x.age40plus = y.age40plus) : x = y := by
  cases x; cases y; simp_all

theorem foldFaces_field (F : Aggregate → Nat) (p : FaceRecord → Bool)
    (hF : ∀ acc f, F (countFace acc f) = F acc + (if p f then 1 else 0)) :
    ∀ (faces : List FaceRecord) (acc : Aggregate),
      F (foldFaces acc faces) = F acc + faces.countP p := by
  intro faces
  induction faces with
  | nil => intro acc; simp [foldFaces]
  | cons f rest ih =>
      intro acc
      simp only [foldFaces, List.foldl_cons] at *
      rw [ih, hF, List.countP_cons]
      omega

theorem foldFaces_total (faces : List FaceRecord) (acc : Aggregate) :
    (foldFaces acc faces).total_faces = acc.total_faces + faces.length := by
  have h := foldFaces_field Aggregate.total_faces (fun _ => true)
    (fun acc f => rfl) faces acc
  simpa [List.countP_true] using h

theorem foldFaces_male (faces : List FaceRecord) (acc : Aggregate) :
    (foldFaces acc faces).male = acc.male + faces.countP isMale :=
  foldFaces_field Aggregate.male isMale (fun _ _ => rfl) faces acc

theorem foldFaces_female (faces : List FaceRecord) (acc : Aggregate) :
    (foldFaces acc faces).female = acc.female + faces.countP isFemale :=
  foldFaces_field Aggregate.female isFemale (fun _ _ => rfl) faces acc

theorem foldFaces_age10s (faces : List FaceRecord) (acc : Aggregate) :
    (foldFaces acc faces).age10s = acc.age10s + faces.countP is10s :=
  foldFaces_field Aggregate.age10s is10s (fun _ _ => rfl) faces acc

theorem foldFaces_age20s (faces : List FaceRecord) (acc : Aggregate) :
    (foldFaces acc faces).age20s = acc.age20s + faces.countP is20s :=
  foldFaces_field Aggregate.age20s is20s (fun _ _ => rfl) faces acc

theorem foldFaces_age30s (faces : List FaceRecord) (acc : Aggregate) :
    (foldFaces acc faces).age30s = acc.age30s + faces.countP is30s :=
  foldFaces_field Aggregate.age30s is30s (fun _ _ => rfl) faces acc

theorem foldFaces_age40plus (faces : List FaceRecord) (acc : Aggregate) :
    (foldFaces acc faces).age40plus = acc.age40plus + faces.countP is40plus :=
  foldFaces_field Aggregate.age40plus is40plus (fun _ _ => rfl) faces acc

theorem foldl_batches_field (F : Aggregate → Nat) (p : FaceRecord → Bool)
    (hF : ∀ acc f, F (countFace acc f) = F acc + (if p f then 1 else 0)) :
    ∀ (bs : List (List FaceRecord)) (acc : Aggregate),
      F (bs.foldl foldFaces acc) = F acc + bs.flatten.countP p := by
  intro bs
  induction bs with
  | nil => intro acc; simp
  | cons b rest ih =>
      intro acc
      simp only [List.foldl_cons, List.flatten_cons, List.countP_append]
      rw [ih, foldFaces_field F p hF]
      omega

theorem foldBatches_total (bs : List (List FaceRecord)) :
    (foldBatches bs).total_faces = bs.flatten.length := by
  have h := foldl_batches_field Aggregate.total_faces (fun _ => true)
    (fun acc f => rfl) bs zeroAggregate
  simpa [foldBatches, zeroAggregate, List.countP_true] using h

theorem foldBatches_male (bs : List (List FaceRecord)) :
    (foldBatches bs).male = bs.flatten.countP isMale := by
  have h := foldl_batches_field Aggregate.male isMale (fun _ _ => rfl) bs zeroAggregate
  simpa [foldBatches, zeroAggregate] using h

theorem foldBatches_female (bs : List (List FaceRecord)) :
    (foldBatches bs).female = bs.flatten.countP isFemale := by
  have h := foldl_batches_field Aggregate.female isFemale (fun _ _ => rfl) bs zeroAggregate
  simpa [foldBatches, zeroAggregate] using h

theorem foldBatches_age10s (bs : List (List FaceRecord)) :
    (foldBatches bs).age10s = bs.flatten.countP is10s := by
  have h := foldl_batches_field Aggregate.age10s is10s (fun _ _ => rfl) bs zeroAggregate
  simpa [foldBatches, zeroAggregate] using h

theorem foldBatches_age20s (bs : List (List FaceRecord)) :
    (foldBatches bs).age20s = bs.flatten.countP is20s := by
  have h := foldl_batches_field Aggregate.age20s is20s (fun _ _ => rfl) bs zeroAggregate
  simpa [foldBatches, zeroAggregate] using h

theorem foldBatches_age30s (bs : List (List FaceRecord)) :
    (foldBatches bs).age30s = bs.flatten.countP is30s := by
  have h := foldl_batches_field Aggregate.age30s is30s (fun _ _ => rfl) bs zeroAggregate
  simpa [foldBatches, zeroAggregate] using h

theorem foldBatches_age40plus (bs : List (List FaceRecord)) :
    (foldBatches bs).age40plus = bs.flatten.countP is40plus := by
  have h := foldl_batches_field Aggregate.age40plus is40plus (fun _ _ => rfl) bs zeroAggregate
  simpa [foldBatches, zeroAggregate] using h

theorem foldFaces_right_comm (acc : Aggregate) (b1 b2 : List FaceRecord) :
    foldFaces (foldFaces acc b1) b2 = foldFaces (foldFaces acc b2) b1 := by
  apply Aggregate.ext_fields <;>
    simp only [foldFaces_total, foldFaces_male, foldFaces_female, foldFaces_age10s,
      foldFaces_age20s, foldFaces_age30s, foldFaces_age40plus] <;> omega

/-! ### Counting inequalities for disjoint bucket predicates -/

theorem countP_two_le {α : Type} (l : List α) (p q : α → Bool)
    (h : ∀ x, (if p x then 1 else 0) + (if q x then 1 else 0) ≤ 1) :
    l.countP p + l.countP q ≤ l.length := by
  induction l with
  | nil => simp
  | cons a l ih =>
      have := h a
      simp only [List.countP_cons, List.length_cons]
      omega

theorem countP_two_eq {α : Type} (l : List α) (p q : α → Bool)
    (h : ∀ x ∈ l, (if p x then 1 else 0) + (if q x then 1 else 0) = 1) :
    l.countP p + l.countP q = l.length := by
  induction l with
  | nil => simp
  | cons a l ih =>
      have ha := h a (List.mem_cons_self a l)
      have hl := ih (fun x hx => h x (List.mem_cons_of_mem a hx))
      simp only [List.countP_cons, List.length_cons]
      omega

theorem countP_four_le {α : Type} (l : List α) (p q r s : α → Bool)
    (h : ∀ x, (if p x then 1 else 0) + (if q x then 1 else 0)
      + (if r x then 1 else 0) + (if s x then 1 else 0) ≤ 1) :
    l.countP p + l.countP q + l.countP r + l.countP s ≤ l.length := by
  induction l with
  | nil => simp
  | cons a l ih =>
      have := h a
      simp only [List.countP_cons, List.length_cons]
      omega

theorem countP_four_eq {α : Type} (l : List α) (p q r s : α → Bool)
    (h : ∀ x ∈ l, (if p x then 1 else 0) + (if q x then 1 else 0)
      + (if r x then 1 else 0) + (if s x then 1 else 0) = 1) :
    l.countP p + l.countP q + l.countP r + l.countP s = l.length := by
  induction l with
  | nil => simp
  | cons a l ih =>
      have ha := h a (List.mem_cons_self a l)
      have hl := ih (fun x hx => h x (List.mem_cons_of_mem a hx))
      simp only [List.countP_cons, List.length_cons]
      omega

/-- A face increments at most one of the two gender buckets: its lowercased
gender cannot equal both dictionary keys. -/
theorem gender_ind_le (f : FaceRecord) :
    (if isMale f then 1 else 0) + (if isFemale f then 1 else 0) ≤ 1 := by
  simp only [isMale, isFemale]
  by_cases hm : lowerStr f.gender = "male"
  · simp only [hm]; decide
  · by_cases hf : lowerStr f.gender = "female"
    · simp only [hf]; decide
    · simp only [hm, hf]; decide

/-- A face with a recognised gender label increments exactly one bucket. -/
theorem gender_ind_eq (f : FaceRecord) (h : isMale f = true ∨ isFemale f = true) :
    (if isMale f then 1 else 0) + (if isFemale f then 1 else 0) = 1 := by
  simp only [isMale, isFemale] at h ⊢
  rcases h with h | h
  · have hm : lowerStr f.gender = "male" := of_decide_eq_true h
    simp only [hm]; decide
  · have hf : lowerStr f.gender = "female" := of_decide_eq_true h
    simp only [hf]; decide

/-- A face increments at most one of the four age buckets: the four keys are
pairwise distinct strings. -/
theorem age_ind_le (f : FaceRecord) :
    (if is10s f then 1 else 0) + (if is20s f then 1 else 0)
      + (if is30s f then 1 else 0) + (if is40plus f then 1 else 0) ≤ 1 := by
  simp only [is10s, is20s, is30s, is40plus]
  by_cases h1 : f.age_group = "10s"
  · simp only [h1]; decide
  · by_cases h2 : f.age_group = "20s"
    · simp only [h2]; decide
    · by_cases h3 : f.age_group = "30s"
      · simp only [h3]; decide
      · by_cases h4 : f.age_group = "40_plus"
        · simp only [h4]; decide
        · simp only [h1, h2, h3, h4]; decide

/-- A face whose age group is one of the four keys increments exactly one
age bucket. -/
theorem age_ind_eq (f : FaceRecord) (h : f.age_group ∈ ageBuckets) :
    (if is10s f then 1 else 0) + (if is20s f then 1 else 0)
      + (if is30s f then 1 else 0) + (if is40plus f then 1 else 0) = 1 := by
  simp only [ageBuckets, List.mem_cons, List.not_mem_nil, or_false] at h
  simp only [is10s, is20s, is30s, is40plus]
  rcases h with h | h | h | h <;> simp only [h] <;> decide

/-- C4 — for every sequence of face-record batches, the aggregate satisfies
`male + female ≤ total_faces` and the sum of the four age buckets is at most
`total_faces`; both hold with equality when every face carries a recognised
label.  A face with an unrecognised label is counted in `total_faces` but in
no bucket. -/
theorem aggregate_bucket_invariants (bs : List (List FaceRecord)) :
    ((foldBatches bs).male + (foldBatches bs).female ≤ (foldBatches bs).total_faces) ∧
    (ageSum (foldBatches bs) ≤ (foldBatches bs).total_faces) ∧
    ((∀ f ∈ bs.flatten, isMale f = true ∨ isFemale f = true) →
      (foldBatches bs).male + (foldBatches bs).female = (foldBatches bs).total_faces) ∧
    ((∀ f ∈ bs.flatten, f.age_group ∈ ageBuckets) →
      ageSum (foldBatches bs) = (foldBatches bs).total_faces) := by
  simp only [ageSum, foldBatches_total, foldBatches_male, foldBatches_female,
    foldBatches_age10s, foldBatches_age20s, foldBatches_age30s, foldBatches_age40plus]
  refine ⟨?_, ?_, ?_, ?_⟩
  · exact countP_two_le _ _ _ gender_ind_le
  · exact countP_four_le _ _ _ _ _ age_ind_le
  · intro h
    exact countP_two_eq _ _ _ (fun f hf => gender_ind_eq f (h f hf))
  · intro h
    exact countP_four_eq _ _ _ _ _ (fun f hf => age_ind_eq f (h f hf))

theorem aggregate_bucket_invariants_witness :
    ((foldBatches [[⟨"Male", "20s"⟩, ⟨"female", "30s"⟩], [⟨"male", "20s"⟩]]).male
        + (foldBatches [[⟨"Male", "20s"⟩, ⟨"female", "30s"⟩], [⟨"male", "20s"⟩]]).female
        = (foldBatches [[⟨"Male", "20s"⟩, ⟨"female", "30s"⟩], [⟨"male", "20s"⟩]]).total_faces) ∧
    (ageSum (foldBatches [[⟨"Male", "20s"⟩, ⟨"female", "30s"⟩], [⟨"male", "20s"⟩]])
        = (foldBatches [[⟨"Male", "20s"⟩, ⟨"female", "30s"⟩], [⟨"male", "20s"⟩]]).total_faces) :=
  ⟨(aggregate_bucket_invariants _).2.2.1 (by decide),
   (aggregate_bucket_invariants _).2.2.2 (by decide)⟩

/-- C5 — the aggregation fold is commutative and associative across per-image
batches: folding any permutation of the same multiset of face-record batches
yields an identical aggregate. -/
theorem foldBatches_perm_invariant {bs1 bs2 : List (List FaceRecord)}
    (h : bs1.Perm bs2) : foldBatches bs1 = foldBatches bs2 :=
  h.foldl_eq' (fun x _ y _ z => foldFaces_right_comm z x y) zeroAggregate

theorem foldBatches_perm_invariant_witness :
    foldBatches [[⟨"male", "20s"⟩, ⟨"female", "30s"⟩], [⟨"male", "20s"⟩], []]
      = foldBatches [[], [⟨"male", "20s"⟩], [⟨"male", "20s"⟩, ⟨"female", "30s"⟩]] :=
  foldBatches_perm_invariant (by decide)

/-! ### Per-image skipping and job completion -/

theorem foldl_analyzeStep_eq (ex : String → Bool) (infer : String → InferResult)
    (paths : List String) :
    ∀ acc : Aggregate,
      paths.foldl (analyzeStep ex infer) acc
        = (paths.filterMap (successfulBatch ex infer)).foldl foldFaces acc := by
  induction paths with
  | nil => intro acc; rfl
  | cons p rest ih =>
      intro acc
      simp only [List.foldl_cons, List.filterMap_cons]
      by_cases hex : ex p
      · cases hinf : infer p <;>
          simp [analyzeStep, successfulBatch, hex, hinf, ih]
      · simp [analyzeStep, successfulBatch, hex, ih]

/-- `analyze_images` computes exactly the fold of the batches of the images
that exist on disk and whose inference succeeded; skipped images contribute
nothing. -/
theorem analyze_images_eq_foldBatches (ex : String → Bool)
    (infer : String → InferResult) (paths : List String) :
    analyze_images ex infer paths = foldBatches (successfulBatches ex infer paths) :=
  foldl_analyzeStep_eq ex infer paths zeroAggregate

theorem analyze_images_all_error (ex : String → Bool) (infer : String → InferResult)
    (h : ∀ p, ∃ e, infer p = InferResult.error e) (paths : List String) :
    analyze_images ex infer paths = zeroAggregate := by
  rw [analyze_images_eq_foldBatches]
  have hb : successfulBatches ex infer paths = [] := by
    rw [successfulBatches, List.filterMap_eq_nil_iff]
    intro p _
    obtain ⟨e, he⟩ := h p
    simp [successfulBatch, he]
  rw [hb]
  rfl

/-- C2 — per-image failures never fail a job: whatever the file-system and
inference oracles do, the background task commits the job as `completed`; the
aggregate is the fold of exactly the successful batches (missing, unreadable
or erroring images are skipped and the batch continues); and when the engine
raises for every image the job still completes with `total_faces = 0`. -/
theorem per_image_failures_nonfatal (ex : String → Bool)
    (infer : String → InferResult) (now1 now2 : Nat) (paths : List String)
    (job : Job) :
    ((run_analysis_background ex infer now1 now2 paths job).status = Status.completed) ∧
    (analyze_images ex infer paths = foldBatches (successfulBatches ex infer paths)) ∧
    ((∀ p, ∃ e, infer p = InferResult.error e) →
      (run_analysis_background ex infer now1 now2 paths job).json_result
          = JsonResult.result zeroAggregate ∧ zeroAggregate.total_faces = 0) := by
  refine ⟨rfl, analyze_images_eq_foldBatches ex infer paths, fun h => ⟨?_, rfl⟩⟩
  simp only [run_analysis_background, analyze_images_all_error ex infer h paths]

/-- An inference oracle that raises for every image, as an engine whose
initialisation fails does (the lazy `pipeline` property raises on first
dereference, inside the per-image `try`). -/
def inferAllFail : String → InferResult :=
  fun _ => InferResult.error "InferenceError"

theorem per_image_failures_nonfatal_witness :
    (run_analysis_background (fun _ => true) inferAllFail 1 2 ["a.jpg", "b.jpg"]
        ⟨"job-2", ["a.jpg", "b.jpg"], Status.pending, JsonResult.empty, 0, 0⟩).json_result
      = JsonResult.result zeroAggregate ∧ zeroAggregate.total_faces = 0 :=
  (per_image_failures_nonfatal (fun _ => true) inferAllFail 1 2 ["a.jpg", "b.jpg"]
      ⟨"job-2", ["a.jpg", "b.jpg"], Status.pending, JsonResult.empty, 0, 0⟩).2.2
    (fun _ => ⟨"InferenceError", rfl⟩)

/-- A pending job with a two-image manifest, both images present on disk. -/
def jobInit : Job :=
  ⟨"job-3", ["img1.jpg", "img2.jpg"], Status.pending, JsonResult.empty, 0, 0⟩

/-- The background run of `jobInit` against an engine whose initialisation
fails: every `self.pipeline.process_image` call raises the initialisation
error, because the lazy `pipeline` property of `PipelineService` is first
dereferenced inside the per-image `try` of `analyze_images`. -/
def jobInitRun : Job :=
  run_analysis_background (fun _ => true)
    (fun _ => InferResult.error "pipeline initialisation failed") 1 2
    ["img1.jpg", "img2.jpg"] jobInit

/-- C3 counterexample — the claim says an engine-initialisation failure
terminates the job as `Failed` with the reason stored; on the code the
failure is caught by the per-image handler, every image is skipped, and the
job commits as `Completed` with the zero aggregate and no stored reason. -/
theorem engine_init_failure_not_fatal_cex :
    jobInitRun.status = Status.completed ∧
    jobInitRun.status ≠ Status.failed ∧
    jobInitRun.json_result = JsonResult.result zeroAggregate := by
  refine ⟨rfl, ?_, rfl⟩
  decide

/-- C3 amended — an engine whose every inference call raises (in particular
one whose initialisation fails, since the lazy `pipeline` property first
raises inside the per-image `try`) does not fail the job: the background task
still commits `completed` with the zero aggregate, and no failure reason is
recorded.  The `failed` branch of `run_analysis_background` is reachable only
through errors outside `analyze_images` (serialization or database commits),
never through the inference engine. -/
theorem engine_init_failure_absorbed (ex : String → Bool) (e : String)
    (now1 now2 : Nat) (paths : List String) (job : Job) :
    ((run_analysis_background ex (fun _ => InferResult.error e) now1 now2 paths job).status
        = Status.completed) ∧
    ((run_analysis_background ex (fun _ => InferResult.error e) now1 now2 paths job).json_result
        = JsonResult.result zeroAggregate) := by
  refine ⟨rfl, ?_⟩
  simp only [run_analysis_background,
    analyze_images_all_error ex _ (fun _ => ⟨e, rfl⟩) paths]

/-! ### The start handler -/

/-- A fresh pending job with a one-image manifest. -/
def pendingJob : Job :=
  ⟨"job-1", ["img.jpg"], Status.pending, JsonResult.empty, 0, 0⟩

/-- The server state right after upload: the pending row exists and no
background task has been submitted yet. -/
def pendingState : ServerState := ⟨some pendingJob, []⟩

/-- C1 (code divergence) — the handler claims nothing: `start_analysis` only
reads the status and enqueues the task, and the transition to `processing`
happens later inside the queued `run_analysis_background`.  Two start calls
on a fresh pending job, both arriving before the first queued task begins,
therefore BOTH return accepted, neither receives the conflict response, two
pipeline executions are scheduled, and the stored row is still `pending`
after both calls — the exclusive compare-and-swap claim fails on the code. -/
theorem double_start_both_accepted :
    ((start_analysis pendingState).1 = StartResponse.accepted) ∧
    ((start_analysis (start_analysis pendingState).2).1 = StartResponse.accepted) ∧
    ((start_analysis (start_analysis pendingState).2).1 ≠ StartResponse.conflict) ∧
    ((start_analysis (start_analysis pendingState).2).2.scheduled.length = 2) ∧
    ((start_analysis (start_analysis pendingState).2).2.job = some pendingJob) := by
  decide

/-- C6 — calling start on a completed job is idempotent on terminal success:
the handler answers with the completed message and returns the state
untouched, so the stored aggregate and `updated_at` are unchanged and no
background task is enqueued (the vision engine is not re-invoked). -/
theorem start_completed_idempotent (st : ServerState) (a : Job)
    (hj : st.job = some a) (hc : a.status = Status.completed) :
    start_analysis st = (StartResponse.completedMsg, st) ∧
    (start_analysis st).2.job = st.job ∧
    (start_analysis st).2.scheduled = st.scheduled := by
  have h : start_analysis st = (StartResponse.completedMsg, st) := by
    simp [start_analysis, hj, hc]
  exact ⟨h, by rw [h], by rw [h]⟩

/-- A completed job carrying a stored aggregate. -/
def completedJob : Job :=
  ⟨"job-6", ["img.jpg"], Status.completed, JsonResult.result ⟨3, 2, 1, 0, 2, 1, 0⟩, 0, 5⟩

theorem start_completed_idempotent_witness :
    start_analysis ⟨some completedJob, []⟩
      = (StartResponse.completedMsg, ⟨some completedJob, []⟩) :=
  (start_completed_idempotent ⟨some completedJob, []⟩ completedJob rfl rfl).1

/-- C8 — calling start on a job whose status is `processing` returns the
conflict response and takes no further action: the state (job row and task
queue) is returned unchanged, so nothing is scheduled and nothing mutated. -/
theorem start_processing_conflict (st : ServerState) (a : Job)
    (hj : st.job = some a) (hp : a.status = Status.processing) :
    start_analysis st = (StartResponse.conflict, st) ∧
    (start_analysis st).2.job = st.job ∧
    (start_analysis st).2.scheduled = st.scheduled := by
  have h : start_analysis st = (StartResponse.conflict, st) := by
    simp [start_analysis, hj, hp]
  exact ⟨h, by rw [h], by rw [h]⟩

/-- A job currently being processed. -/
def processingJob : Job :=
  ⟨"job-8", ["img.jpg"], Status.processing, JsonResult.empty, 0, 3⟩

theorem start_processing_conflict_witness :
    start_analysis ⟨some processingJob, []⟩
      = (StartResponse.conflict, ⟨some processingJob, []⟩) :=
  (start_processing_conflict ⟨some processingJob, []⟩ processingJob rfl rfl).1

/-! ### The upload handler -/

/-- C7 amended — an empty file list is rejected synchronously and creates no
job; a non-empty file list EVERY entry of which has an allowed image
extension creates a job with status `pending` and the empty `json_result`
sentinel (no aggregate).  The amendment: the code also rejects, without
creating a job, any non-empty list containing a file whose extension is not
allowed, so the pending-job guarantee needs the extension hypothesis. -/
theorem upload_create_contract (aid : String) (now : Nat) :
    (upload_images aid now [] = UploadResult.noFiles) ∧
    (∀ files : List String, files ≠ [] →
      (∀ f ∈ files, validate_image f = true) →
      ∃ job : Job, upload_images aid now files = UploadResult.created job ∧
        job.status = Status.pending ∧ job.json_result = JsonResult.empty) := by
  refine ⟨rfl, fun files hne hv => ?_⟩
  have h1 : files.isEmpty = false := by
    cases files with
    | nil => exact absurd rfl hne
    | cons a l => rfl
  have h2 : files.find? (fun f => ! validate_image f) = none := by
    rw [List.find?_eq_none]
    intro x hx
    simp [hv x hx]
  refine ⟨{ analysis_id := aid, image_paths := files.map (savedPath aid),
            status := Status.pending, json_result := JsonResult.empty,
            created_at := now, updated_at := now }, ?_, rfl, rfl⟩
  simp [upload_images, h1, h2]

theorem upload_create_contract_witness :
    ∃ job : Job, upload_images "id-7" 0 ["photo.jpg"] = UploadResult.created job ∧
      job.status = Status.pending ∧ job.json_result = JsonResult.empty :=
  (upload_create_contract "id-7" 0).2 ["photo.jpg"] (by decide) (by decide)

/-- C7 counterexample — the manifest `["notes.txt"]` is non-empty, yet the
handler rejects it with the invalid-type error and creates no job, refuting
the claim that every non-empty manifest yields a pending job. -/
theorem upload_nonempty_manifest_rejected_cex :
    ((upload_images "id-7" 0 ["notes.txt"]).isCreated = false) ∧
    (upload_images "id-7" 0 ["notes.txt"] = UploadResult.invalidType "notes.txt") ∧
    (["notes.txt"] ≠ ([] : List String)) := by
  decide

/-! ### The image pipeline -/

theorem map_age_to_group_mem (s : String) : map_age_to_group s ∈ ageBuckets := by
  unfold map_age_to_group
  repeat' split
  all_goals decide

theorem processFaces_age_bucket (g a : FaceBox → String) (dets : List FaceBox) :
    ∀ f ∈ processFaces g a dets, f.age_group ∈ ageBuckets := by
  induction dets with
  | nil => intro f hf; simp [processFaces] at hf
  | cons d rest ih =>
      intro f hf
      rw [processFaces] at hf
      split at hf
      · exact ih f hf
      · rcases List.mem_cons.mp hf with h | h
        · subst h; exact map_age_to_group_mem (a d)
        · exact ih f h

/-- C9 — the age-label mapping is total onto the four fixed buckets (any
label outside its table falls to the default `40_plus`); consequently every
face record produced by `process_image` carries a recognised age bucket, and
any aggregate built from batches of such records has the sum of its four age
buckets equal to `total_faces`. -/
theorem age_mapping_total_buckets :
    (∀ s : String, map_age_to_group s ∈ ageBuckets) ∧
    (∀ (g a : FaceBox → String) (dets : List FaceBox),
      ∀ f ∈ process_image g a dets, f.age_group ∈ ageBuckets) ∧
    (∀ bs : List (List FaceRecord),
      (∀ f ∈ bs.flatten, f.age_group ∈ ageBuckets) →
      ageSum (foldBatches bs) = (foldBatches bs).total_faces) := by
  refine ⟨map_age_to_group_mem, ?_, ?_⟩
  · intro g a dets f hf
    rw [process_image] at hf
    split at hf
    · simp at hf
    · exact processFaces_age_bucket g a dets f hf
  · intro bs h
    simp only [ageSum, foldBatches_total, foldBatches_age10s, foldBatches_age20s,
      foldBatches_age30s, foldBatches_age40plus]
    exact countP_four_eq _ _ _ _ _ (fun f hf => age_ind_eq f (h f hf))

theorem age_mapping_total_buckets_witness :
    ageSum (foldBatches [[⟨"male", "20s"⟩, ⟨"female", "40_plus"⟩], [⟨"other", "10s"⟩]])
      = (foldBatches [[⟨"male", "20s"⟩, ⟨"female", "40_plus"⟩], [⟨"other", "10s"⟩]]).total_faces :=
  age_mapping_total_buckets.2.2 _ (by decide)

/-- Whether the crop of a detected box passes the minimum-size gate of
`process_image` line 127: at least 10 wide and at least 10 tall. -/
def keepFace (f : FaceBox) : Bool := ! decide (cropWidth f < 10 ∨ cropHeight f < 10)

theorem processFaces_eq_filter_map (g a : FaceBox → String) (dets : List FaceBox) :
    processFaces g a dets
      = (dets.filter keepFace).map (fun f => ⟨g f, map_age_to_group (a f)⟩) := by
  induction dets with
  | nil => rfl
  | cons d rest ih =>
      by_cases h : cropWidth d < 10 ∨ cropHeight d < 10 <;>
        simp [processFaces, List.filter_cons, keepFace, h, ih]

/-- C10 — every detected face whose crop is narrower than 10 or shorter than
10 is excluded from the returned face-record list (the result is exactly the
size-gated detections, classified, in order); the aggregate total counts only
kept faces, so it never exceeds the raw detection count, and is strictly
below it whenever some detection is too small. -/
theorem small_faces_excluded (g a : FaceBox → String) (dets : List FaceBox) :
    (process_image g a dets
      = (dets.filter keepFace).map (fun f => ⟨g f, map_age_to_group (a f)⟩)) ∧
    ((foldBatches [process_image g a dets]).total_faces ≤ dets.length) ∧
    ((∃ f ∈ dets, cropWidth f < 10 ∨ cropHeight f < 10) →
      (foldBatches [process_image g a dets]).total_faces < dets.length) := by
  have hpi : process_image g a dets
      = (dets.filter keepFace).map (fun f => ⟨g f, map_age_to_group (a f)⟩) := by
    rw [process_image]
    split
    · rename_i hemp
      rw [List.isEmpty_iff] at hemp
      subst hemp
      rfl
    · exact processFaces_eq_filter_map g a dets
  have hlen : (foldBatches [process_image g a dets]).total_faces
      = (dets.filter keepFace).length := by
    rw [foldBatches_total, hpi]
    simp
  refine ⟨hpi, ?_, ?_⟩
  · rw [hlen]
    exact List.length_filter_le keepFace dets
  · intro ⟨f, hf, hsmall⟩
    rw [hlen]
    exact List.length_filter_lt_length_iff_exists.mpr
      ⟨f, hf, by simp [keepFace, hsmall]⟩

theorem small_faces_excluded_witness :
    (foldBatches [process_image (fun _ => "male") (fun _ => "20-29")
        [⟨0, 0, 5, 5⟩, ⟨0, 0, 50, 50⟩]]).total_faces
      < ([⟨0, 0, 5, 5⟩, ⟨0, 0, 50, 50⟩] : List FaceBox).length :=
  (small_faces_excluded (fun _ => "male") (fun _ => "20-29")
      [⟨0, 0, 5, 5⟩, ⟨0, 0, 50, 50⟩]).2.2 ⟨⟨0, 0, 5, 5⟩, by decide, by decide⟩

end FaceAnalysis
